import Mathlib

set_option autoImplicit false

namespace SecureText

/- ---------------------------------------------------------------------------
Shallow embedding of the securetext-messenger repository.

Strings of the JavaScript source are modelled by their sequences of code
units, as lists of natural numbers; the helper str turns a Lean string
literal into that representation.  The base64 transport encoding
(bufferToBase64 / base64ToBuffer in the source) is an injective encoding
with a left inverse, so byte buffers stand for their base64 strings
directly.  The Web Crypto primitives (AES-256-GCM, RSA-OAEP-2048, PBKDF2)
are embedded symbolically: an authentication tag is an unforgeable
commitment to the key, nonce and ciphertext body, and an RSA ciphertext is
an opaque pair of the wrapping public key and the wrapped payload.  This is
the standard symbolic (Dolev-Yao) idealisation of authenticated
encryption: the algebraic structure of the source code is kept exactly,
while the negligible-probability failure of a real 128-bit tag is
idealised to impossibility.
--------------------------------------------------------------------------- -/

def str (s : String) : List Nat := s.toList.map Char.toNat

/- Symmetric keys of the source: fresh AES-256-GCM session keys produced by
generateAESKey, and PBKDF2-derived master keys produced by
deriveKeyFromPassword (100000 iterations of SHA-256, modelled as an opaque
deterministic derivation from the password and salt bytes). -/
inductive SymKey where
  | fresh (n : Nat)
  | pbkdf2 (password salt : List Nat)
deriving DecidableEq

/- Injective byte encoding of a symmetric key, used inside the symbolic
authentication tag. -/
def encodeKey : SymKey → List Nat
  | .fresh n => [0, n]
  | .pbkdf2 p s => [1, p.length, s.length] ++ p ++ s

/- Symbolic AES-CTR style keystream byte for position i. -/
def ksByte (k : SymKey) (iv : List Nat) (i : Nat) : Nat :=
  ((encodeKey k).sum + iv.sum + i) % 256

/- Keystream masking of a byte sequence, an involution. -/
def xorStream (k : SymKey) (iv : List Nat) : Nat → List Nat → List Nat
  | _, [] => []
  | i, b :: t => (b ^^^ ksByte k iv i) :: xorStream k iv (i + 1) t

/- Output of window.crypto.subtle.encrypt with AES-GCM: the ciphertext body
followed by the authentication tag (the source transports the two together
as one base64 buffer). -/
structure GcmSealed where
  body : List Nat
  tag : List Nat
deriving DecidableEq

/- Symbolic GCM authentication tag: commits to the ciphertext body, the
nonce and the key.  Real GCM computes a 128-bit MAC over exactly these
values; symbolically the commitment is kept whole. -/
def gcmTag (k : SymKey) (iv body : List Nat) : List Nat :=
  body ++ iv ++ encodeKey k

def aesGcmEncrypt (k : SymKey) (iv bytes : List Nat) : GcmSealed :=
  let body := xorStream k iv 0 bytes
  ⟨body, gcmTag k iv body⟩

/- window.crypto.subtle.decrypt with AES-GCM: verifies the tag against the
key, nonce and body, and throws (None) on mismatch. -/
def aesGcmDecrypt (k : SymKey) (iv : List Nat) (c : GcmSealed) : Option (List Nat) :=
  if c.tag = gcmTag k iv c.body then some (xorStream k iv 0 c.body) else none

/- encryptWithAES from the crypto service (TextEncoder is the identity on
the code-unit representation). -/
def encryptWithAES (text : List Nat) (key : SymKey) (iv : List Nat) : GcmSealed :=
  aesGcmEncrypt key iv text

/- decryptWithAES from the crypto service. -/
def decryptWithAES (ciphertext : GcmSealed) (key : SymKey) (iv : List Nat) :
    Option (List Nat) :=
  aesGcmDecrypt key iv ciphertext

/- RSA-OAEP private key handle (a 2048-bit key pair is identified by the
index of its generation). -/
structure RsaPriv where
  n : Nat
deriving DecidableEq

/- spki export of the public half of key pair n. -/
def spkiEncode (n : Nat) : List Nat := [n]

/- generateRSAKeyPair: public half exported to transportable bytes, private
half an opaque handle. -/
def generateRSAKeyPair (n : Nat) : List Nat × RsaPriv := (spkiEncode n, ⟨n⟩)

/- Output of RSA-OAEP encryption: opaque, bound to the wrapping public key. -/
structure RsaSealed where
  pubSpki : List Nat
  payload : List Nat
deriving DecidableEq

/- Raw export of an AES key (generateAESKey produces extractable keys;
PBKDF2-derived keys are created non-extractable and are never exported by
the source). -/
def exportRawAes : SymKey → List Nat
  | .fresh n => [n]
  | .pbkdf2 _ _ => []

def importRawAes : List Nat → SymKey
  | [n] => .fresh n
  | _ => .fresh 0

/- encryptKeyWithRSA: imports the spki public key, exports the AES session
key raw, and wraps it under RSA-OAEP. -/
def encryptKeyWithRSA (aesKey : SymKey) (publicKeyStr : List Nat) : RsaSealed :=
  ⟨publicKeyStr, exportRawAes aesKey⟩

/- decryptKeyWithRSA: RSA-OAEP unwrap fails (throws, i.e. None) unless the
ciphertext was wrapped under this private key; on success imports the raw
bytes as an AES-GCM key. -/
def decryptKeyWithRSA (c : RsaSealed) (privateKey : RsaPriv) : Option SymKey :=
  if c.pubSpki = spkiEncode privateKey.n then some (importRawAes c.payload) else none

/- deriveKeyFromPassword: PBKDF2 over the password with the salt, a
deterministic derivation. -/
def deriveKeyFromPassword (password salt : List Nat) : SymKey :=
  .pbkdf2 password salt

/- pkcs8 export of a private key handle. -/
def pkcs8Encode (k : RsaPriv) : List Nat := [k.n]

/- importKey pkcs8: fails on malformed data. -/
def importPkcs8 : List Nat → Option RsaPriv
  | [n] => some ⟨n⟩
  | _ => none

/- protectPrivateKey: exports the private key and encrypts it with the
master key under a fresh 96-bit nonce (passed as a parameter here, as
freshness is chosen by getRandomValues). -/
def protectPrivateKey (privateKey : RsaPriv) (masterKey : SymKey) (iv : List Nat) :
    GcmSealed × List Nat :=
  (aesGcmEncrypt masterKey iv (pkcs8Encode privateKey), iv)

/- recoverPrivateKey: authenticated decryption of the stored blob, then
pkcs8 import.  A GCM tag mismatch (wrong master key, tampering) throws,
surfacing as None. -/
def recoverPrivateKey (encryptedData : GcmSealed) (masterKey : SymKey) (iv : List Nat) :
    Option RsaPriv :=
  (aesGcmDecrypt masterKey iv encryptedData).bind importPkcs8

/- The EncryptedMessage wire record from types.ts. -/
structure EncryptedMessage where
  id : List Nat
  senderId : List Nat
  recipientId : List Nat
  isGroup : Bool
  encryptedContent : GcmSealed
  encryptedSessionKey : RsaSealed
  iv : List Nat
  hmac : List Nat
  timestamp : Nat
deriving DecidableEq

/- sendMessage from App.tsx: generates a session key, encrypts the input
under a fresh nonce, wraps the session key under the recipient public key,
and fills the envelope.  The hmac field is the literal constant
GCM-SECURE. -/
def mkChatMessage (inputText : List Nat) (sender recipient : List Nat)
    (recipientPub : List Nat) (sessionKeyId : Nat) (ivBytes : List Nat)
    (msgId : List Nat) (ts : Nat) : EncryptedMessage :=
  let sessionKey := SymKey.fresh sessionKeyId
  let c := encryptWithAES inputText sessionKey ivBytes
  { id := msgId, senderId := sender, recipientId := recipient, isGroup := false,
    encryptedContent := c,
    encryptedSessionKey := encryptKeyWithRSA sessionKey recipientPub,
    iv := ivBytes, hmac := str ("GCM-SECURE"), timestamp := ts }

/- The receive-side CHAT handler from App.tsx: unwraps the session key with
the local private key, then decrypts the content under the envelope nonce.
Any thrown error is caught and surfaced as a decryption failure (None).
The hmac field of the envelope is never consulted. -/
def receiveChat (m : EncryptedMessage) (priv : RsaPriv) : Option (List Nat) :=
  (decryptKeyWithRSA m.encryptedSessionKey priv).bind fun k =>
    decryptWithAES m.encryptedContent k m.iv

/- Tampering helpers: replace one byte of the ciphertext body, or one byte
of the GCM authentication tag, inside the encryptedContent field. -/
def tamperBody (m : EncryptedMessage) (i b : Nat) : EncryptedMessage :=
  { m with encryptedContent :=
      ⟨m.encryptedContent.body.set i b, m.encryptedContent.tag⟩ }

def tamperTag (m : EncryptedMessage) (i b : Nat) : EncryptedMessage :=
  { m with encryptedContent :=
      ⟨m.encryptedContent.body, m.encryptedContent.tag.set i b⟩ }

/- Replacing the decorative hmac field of an envelope. -/
def setHmac (m : EncryptedMessage) (h : List Nat) : EncryptedMessage :=
  { m with hmac := h }

/- A concrete envelope used by counterexamples. -/
def sampleMsg : EncryptedMessage :=
  mkChatMessage (str ("hi")) (str ("alice")) (str ("bob")) (spkiEncode 7) 3 [9, 9, 9]
    (str ("m1")) 1000

/- ---------------------------------------------------------------------------
Peer identity mapping and the SocketService session manager.
--------------------------------------------------------------------------- -/

def isWsCode (n : Nat) : Bool :=
  decide (n = 32 ∨ n = 9 ∨ n = 10 ∨ n = 11 ∨ n = 12 ∨ n = 13)

/- JavaScript String.prototype.trim, modelled on the ASCII whitespace
range. -/
def jsTrim (l : List Nat) : List Nat :=
  ((l.dropWhile isWsCode).reverse.dropWhile isWsCode).reverse

def lowerCode (n : Nat) : Nat := if 65 ≤ n && n ≤ 90 then n + 32 else n

/- JavaScript String.prototype.toLowerCase, modelled on the ASCII range. -/
def jsToLower (l : List Nat) : List Nat := l.map lowerCode

/- The node identifier expression ST- prefix on the trimmed, lower-cased
username, as written in SocketService.init; connectToPeer and send inline
the same expression, reproduced below per call site. -/
def toNodeId (u : List Nat) : List Nat := str ("ST-") ++ jsToLower (jsTrim u)

def initNodeId (u : List Nat) : List Nat := str ("ST-") ++ jsToLower (jsTrim u)

def connectTargetId (t : List Nat) : List Nat := str ("ST-") ++ jsToLower (jsTrim t)

def sendTargetId (r : List Nat) : List Nat := str ("ST-") ++ jsToLower (jsTrim r)

/- The re-keying site in the setupConnection data handler derives the key
from the exchanged username with toLowerCase alone, without trim. -/
def rekeyNodeId (u : List Nat) : List Nat := str ("ST-") ++ jsToLower u

def normalizeUsername (u : List Nat) : List Nat := jsToLower (jsTrim u)

/- The User record from types.ts (public fields only). -/
structure User where
  id : List Nat
  username : List Nat
  publicKey : List Nat
deriving DecidableEq

/- A transport data-connection handle: its object identity, the
transport-level peer id it addresses, and whether its send method throws
when invoked on it. -/
structure Conn where
  cid : Nat
  peer : List Nat
  sendThrows : Bool
deriving DecidableEq

/- The wire payload union from socketService.ts. -/
inductive ProtocolMessage where
  | chat (data : EncryptedMessage)
  | identityExchange (publicKey : List Nat) (username : List Nat)
deriving DecidableEq

/- The connection registry is a JavaScript Map from peer-id strings to
connection handles, with insertion-order association-list semantics. -/
def mapGet : List (List Nat × Conn) → List Nat → Option Conn
  | [], _ => none
  | e :: t, k => if e.1 = k then some e.2 else mapGet t k

def mapSet : List (List Nat × Conn) → List Nat → Conn → List (List Nat × Conn)
  | [], k, v => [(k, v)]
  | e :: t, k, v => if e.1 = k then (k, v) :: t else e :: mapSet t k v

def mapDel (m : List (List Nat × Conn)) (k : List Nat) : List (List Nat × Conn) :=
  m.filter fun e => !(decide (e.1 = k))

def insertNat (k : Nat) (l : List Nat) : List Nat :=
  if l.contains k then l else k :: l

def removeNat (k : Nat) (l : List Nat) : List Nat :=
  l.filter fun x => !(x == k)

/- Whether the list starts with the given pattern. -/
def leadsWith : List Nat → List Nat → Bool
  | [], _ => true
  | _ :: _, [] => false
  | p :: ps, x :: xs => p == x && leadsWith ps xs

/- JavaScript String.prototype.replace with a string pattern: removes the
first occurrence of the pattern (replacement is the empty string in the
source). -/
def removeFirst (pat : List Nat) : List Nat → List Nat
  | [] => []
  | x :: t => if leadsWith pat (x :: t) then (x :: t).drop pat.length
              else x :: removeFirst pat t

/- The mutable fields of the SocketService singleton, together with the
transport-level facts needed to interpret its guards: whether a Peer object
exists, whether it is destroyed or disconnected, which connection handles
are currently open at the transport level, which handles have had
setupConnection handlers registered, and the send closures registered by
conn.on open inside send. timersPending counts scheduled reconnect timers
(the claims quantify over it); reconnectTimeout mirrors the truthiness of
the field of the same name. -/
structure SvcState where
  peerExists : Bool
  peerDestroyed : Bool
  peerDisconnected : Bool
  isOnline : Bool
  myId : List Nat
  myUser : Option User
  connections : List (List Nat × Conn)
  openConns : List Nat
  tracked : List Nat
  reconnectDelay : ℚ
  reconnectTimeout : Bool
  timersPending : Nat
  pendingOpenSends : List (Nat × ProtocolMessage)
  isDestroyed : Bool
deriving DecidableEq

/- Observable outputs of one event turn: error-handler invocations, the
payloads passed to conn.send together with the handle used, the records
delivered to message handlers, whether the onReady callback fired, and the
delays of reconnect timers scheduled during the turn. -/
structure Out where
  errors : List (List Nat × List Nat)
  sent : List (Nat × ProtocolMessage)
  delivered : List ProtocolMessage
  ready : Bool
  scheduled : List ℚ
deriving DecidableEq

def emptyOut : Out := ⟨[], [], [], false, []⟩

def errOut (ty msg : List Nat) : Out := ⟨[(ty, msg)], [], [], false, []⟩

def outAppend (a b : Out) : Out :=
  ⟨a.errors ++ b.errors, a.sent ++ b.sent, a.delivered ++ b.delivered,
   a.ready || b.ready, a.scheduled ++ b.scheduled⟩

/- The transport result of a peer.connect call made inside send: the fresh
connection handle, or None when the call throws. -/
structure SendEnv where
  connectResult : Option Conn
deriving DecidableEq

/- SocketService.init: a complete no-op while a live, non-destroyed peer
exists; otherwise stores the user, derives the local node id and creates
the transport peer.  The returned flag records whether a peer was created
(only then is an onReady callback ever registered). -/
def initFun (u : User) (s : SvcState) : SvcState × Bool :=
  if s.peerExists && !s.peerDestroyed then (s, false)
  else
    ({ s with isDestroyed := false, myUser := some u,
              myId := initNodeId u.username,
              peerExists := true, peerDestroyed := false,
              peerDisconnected := false }, true)

/- handleReconnect: a no-op when a reconnect timer is already pending,
otherwise schedules exactly one timer at the current delay. -/
def handleReconnect (s : SvcState) : SvcState × Option ℚ :=
  if s.reconnectTimeout then (s, none)
  else ({ s with reconnectTimeout := true, timersPending := s.timersPending + 1 },
        some s.reconnectDelay)

/- The body of the scheduled reconnect timer: attempt resumption or full
recreation, then clear the timer handle and increase the delay
multiplicatively up to the 30000 ms ceiling.  Firing is only possible while
a timer is actually pending. -/
def timerFireFun (s : SvcState) : SvcState :=
  if s.timersPending = 0 then s
  else
    let s1 :=
      if s.peerExists && s.peerDisconnected && !s.peerDestroyed then s
      else if !s.peerExists || s.peerDestroyed then
        match s.myUser with
        | some u => (initFun u s).1
        | none => s
      else s
    { s1 with reconnectTimeout := false,
              timersPending := s.timersPending - 1,
              reconnectDelay := min (s1.reconnectDelay * (3 / 2)) 30000 }

/- setupConnection: duplicate-registration guard, then registration of the
open, data, close and error handlers on the handle. -/
def setupConnectionFun (c : Conn) (s : SvcState) : SvcState :=
  match mapGet s.connections c.peer with
  | some e =>
      if s.openConns.contains e.cid then s
      else { s with tracked := insertNat c.cid s.tracked }
  | none => { s with tracked := insertNat c.cid s.tracked }

/- The open handler of a tracked connection: sends the identity-exchange
record, stores the handle in the registry under the transport peer id, and
then any send closure registered on the same handle fires. -/
def connOpenFun (c : Conn) (s : SvcState) : SvcState × Out :=
  let s0 := { s with openConns := insertNat c.cid s.openConns }
  let fired := (s0.pendingOpenSends.filter fun q => q.1 == c.cid).map fun q => (c.cid, q.2)
  let s1 := { s0 with pendingOpenSends := s0.pendingOpenSends.filter fun q => !(q.1 == c.cid) }
  if s1.tracked.contains c.cid then
    let idOut : List (Nat × ProtocolMessage) :=
      match s1.myUser with
      | some u => [(c.cid, .identityExchange u.publicKey u.username)]
      | none => []
    ({ s1 with connections := mapSet s1.connections c.peer c },
     ⟨[], idOut ++ fired, [], false, []⟩)
  else (s1, ⟨[], fired, [], false, []⟩)

/- The data handler of a tracked connection: on an identity-exchange
record, re-keys the registry entry under the lower-cased (untrimmed)
exchanged username; every record is then forwarded to message handlers. -/
def connDataFun (c : Conn) (d : ProtocolMessage) (s : SvcState) : SvcState × Out :=
  if s.tracked.contains c.cid then
    let s1 :=
      match d with
      | .identityExchange _ un =>
          { s with connections := mapSet s.connections (rekeyNodeId un) c }
      | .chat _ => s
    (s1, ⟨[], [], [d], false, []⟩)
  else (s, emptyOut)

/- The close and error handlers of a tracked connection: delete the
registry entry keyed by the transport peer id.  The transport additionally
marks the handle closed. -/
def connCleanupFun (c : Conn) (s : SvcState) : SvcState × Out :=
  let s0 := { s with openConns := removeNat c.cid s.openConns }
  if s0.tracked.contains c.cid then
    ({ s0 with connections := mapDel s0.connections c.peer }, emptyOut)
  else (s0, emptyOut)

/- connectToPeer. -/
def connectToPeerFun (t : List Nat) (nc : Option Conn) (s : SvcState) : SvcState × Out :=
  let peerId := connectTargetId t
  if peerId = s.myId then (s, emptyOut)
  else
    let existingOpen :=
      match mapGet s.connections peerId with
      | some e => s.openConns.contains e.cid
      | none => false
    if existingOpen then (s, emptyOut)
    else if !s.peerExists || s.peerDestroyed || !s.isOnline then
      (s, errOut (str ("offline")) (str ("Cannot connect: Node is currently offline from mesh.")))
    else
      match nc with
      | some c => (setupConnectionFun c s, emptyOut)
      | none => (s, errOut (str ("connect-fail")) (str ("Initialization of P2P channel failed.")))

/- The branch of send taken when no open connection to the target exists:
a fresh outbound connect, handler registration, and a send closure
registered on the open event of the fresh handle. -/
def sendConnectBranch (s : SvcState) (m : EncryptedMessage) (env : SendEnv) :
    SvcState × Out × Nat :=
  match env.connectResult with
  | some c =>
      let s1 := setupConnectionFun c s
      ({ s1 with pendingOpenSends := (c.cid, ProtocolMessage.chat m) :: s1.pendingOpenSends },
       emptyOut, 1)
  | none =>
      (s, errOut (str ("send-fail")) (str ("Could not reach node ") ++ m.recipientId), 1)

/- SocketService.send.  The source retries through an unbounded recursive
self-call; the embedding makes the recursion depth explicit through a fuel
parameter, and the stability theorem for claim C8 shows that fuel 2 already
computes the fixed point.  The final component counts the number of send
invocations performed. -/
def sendFuel : Nat → SvcState → EncryptedMessage → SendEnv → SvcState × Out × Nat
  | 0, s, _, _ => (s, emptyOut, 0)
  | Nat.succ fuel, s, m, env =>
      if !s.isOnline then
        (s, errOut (str ("transport")) (str ("Signal dropped: Node is offline.")), 1)
      else
        match mapGet s.connections (sendTargetId m.recipientId) with
        | none => sendConnectBranch s m env
        | some c =>
            if !(s.openConns.contains c.cid) then sendConnectBranch s m env
            else if c.sendThrows then
              let s1 :=
                { s with connections := mapDel s.connections (sendTargetId m.recipientId) }
              let r := sendFuel fuel s1 m env
              (r.1,
               outAppend (errOut (str ("send-fail")) (str ("Transmission failed. Retrying...")))
                 r.2.1,
               r.2.2 + 1)
            else (s, ⟨[], [(c.cid, ProtocolMessage.chat m)], [], false, []⟩, 1)

/- destroy: cancels the pending timer (clearTimeout without nulling the
field, as in the source), closes and clears every tracked connection and
destroys the peer. -/
def destroyFun (s : SvcState) : SvcState :=
  { s with isDestroyed := true,
           timersPending := 0,
           connections := [],
           peerDestroyed := true,
           isOnline := false }

/- Events driving the session manager: transport callbacks of the Peer
object, callbacks of individual connections, the reconnect timer, and the
public API calls.  Connection-creating calls carry the transport result. -/
inductive Event where
  | peerOpen
  | peerConnection (c : Conn)
  | peerError (ty msg : List Nat)
  | peerDisconnected
  | peerClose
  | connOpen (c : Conn)
  | connData (c : Conn) (d : ProtocolMessage)
  | connClose (c : Conn)
  | connErrorEv (c : Conn)
  | timerFire
  | callInit (u : User)
  | callConnectToPeer (target : List Nat) (nc : Option Conn)
  | callSend (m : EncryptedMessage) (env : SendEnv)
  | callDestroy
deriving DecidableEq

def step (s : SvcState) (e : Event) : SvcState × Out :=
  match e with
  | .peerOpen =>
      ({ s with isOnline := true, peerDisconnected := false, reconnectDelay := 1000 },
       ⟨[], [], [], true, []⟩)
  | .peerConnection c => (setupConnectionFun c s, emptyOut)
  | .peerError ty msg =>
      if ty = str ("peer-unavailable") then
        ({ s with connections := mapDel s.connections msg },
         errOut ty (str ("Node ") ++ removeFirst (str ("ST-")) msg
           ++ str (" is currently offline or unreachable.")))
      else if ty = str ("webrtc") then
        (s, errOut ty (str ("P2P Handshake failed. This is likely due to a restrictive firewall or symmetric NAT. Try a different network.")))
      else if ty = str ("network") then
        let r := handleReconnect s
        (r.1, ⟨[(ty, str ("Peer server connection lost. Retrying..."))], [], [], false,
               r.2.toList⟩)
      else if ty = str ("unavailable-id") then
        (s, errOut ty (str ("This Node ID is already active on the mesh. Is another session open?")))
      else
        (s, errOut ty (str ("Protocol Error: ") ++ ty ++ str (" - ") ++ msg))
  | .peerDisconnected =>
      let r := handleReconnect { s with isOnline := false, peerDisconnected := true }
      (r.1, ⟨[], [], [], false, r.2.toList⟩)
  | .peerClose =>
      let s0 := { s with isOnline := false, peerDestroyed := true }
      if s0.isDestroyed then (s0, emptyOut)
      else
        let r := handleReconnect s0
        (r.1, ⟨[], [], [], false, r.2.toList⟩)
  | .connOpen c => connOpenFun c s
  | .connData c d => connDataFun c d s
  | .connClose c => connCleanupFun c s
  | .connErrorEv c => connCleanupFun c s
  | .timerFire => (timerFireFun s, emptyOut)
  | .callInit u => ((initFun u s).1, emptyOut)
  | .callConnectToPeer t nc => connectToPeerFun t nc s
  | .callSend m env =>
      let r := sendFuel 2 s m env
      (r.1, r.2.1)
  | .callDestroy => (destroyFun s, emptyOut)

def stepS (s : SvcState) (e : Event) : SvcState := (step s e).1

def runS (s : SvcState) (evs : List Event) : SvcState := evs.foldl stepS s

def runTr : SvcState → List Event → SvcState × List Out
  | s, [] => (s, [])
  | s, e :: t =>
      let r := step s e
      let r2 := runTr r.1 t
      (r2.1, r.2 :: r2.2)

/- The freshly constructed SocketService singleton. -/
def initialState : SvcState :=
  { peerExists := false, peerDestroyed := false, peerDisconnected := false,
    isOnline := false, myId := [], myUser := none, connections := [],
    openConns := [], tracked := [], reconnectDelay := 1000,
    reconnectTimeout := false, timersPending := 0, pendingOpenSends := [],
    isDestroyed := false }

/- The reconnect-relevant projection of the state: delay, timer handle
truthiness and number of pending timers. -/
def reconFrame (s : SvcState) : ℚ × Bool × Nat :=
  (s.reconnectDelay, s.reconnectTimeout, s.timersPending)

/- One backoff round: an unsolicited disconnect followed by the firing of
the scheduled reconnect timer. -/
def backoffEvents : Nat → List Event
  | 0 => []
  | n + 1 => backoffEvents n ++ [Event.peerDisconnected, Event.timerFire]

def evOpensCid (k : Nat) : Event → Bool
  | .connOpen c => c.cid == k
  | _ => false

def evSendsMsg (m : EncryptedMessage) : Event → Bool
  | .callSend m' _ => m' == m
  | _ => false

/- Concrete instances used by witnesses and counterexamples. -/
def u0 : User := ⟨str ("u1"), str ("bob"), [5]⟩

def c0 : Conn := ⟨0, str ("ST-alice"), false⟩

def rekeyTrace : List Event :=
  [Event.callInit u0, Event.peerOpen, Event.peerConnection c0, Event.connOpen c0,
   Event.connData c0 (ProtocolMessage.identityExchange [7] (str (" alice"))),
   Event.connClose c0]

def onlineState : SvcState := runS initialState [Event.callInit u0, Event.peerOpen]

/- The delay evolution performed inside the reconnect timer callback. -/
def delayStep (d : ℚ) : ℚ := min (d * (3 / 2)) 30000

def u1 : User := ⟨str ("u2"), str ("Carol"), [9]⟩

/- An open connection to bob whose send method throws, and the state in
which it is registered; a fresh replacement connection handle. -/
def cThrow : Conn := ⟨1, str ("ST-bob"), true⟩

def sThrowState : SvcState :=
  { onlineState with connections := [(str ("ST-bob"), cThrow)], openConns := [1] }

def cFresh : Conn := ⟨2, str ("ST-bob"), false⟩

theorem xorStream_invol (k : SymKey) (iv : List Nat) :
    ∀ (i : Nat) (l : List Nat), xorStream k iv i (xorStream k iv i l) = l := by
  intro i l
  induction l generalizing i with
  | nil => simp [xorStream]
  | cons b t ih => simp [xorStream, Nat.xor_cancel_right, ih]

/-- C1: for every plaintext and every generated RSA-OAEP key pair, sealing
the plaintext (fresh AES-256-GCM session key, fresh 96-bit nonce, session
key wrapped under the recipient public key) and opening the result with the
matching private key returns exactly the original plaintext. -/
theorem claim1_seal_open_roundtrip (text sender recipient msgId : List Nat)
    (rsaId sessionKeyId ts : Nat) (ivBytes : List Nat) :
    receiveChat
      (mkChatMessage text sender recipient (generateRSAKeyPair rsaId).1
        sessionKeyId ivBytes msgId ts)
      (generateRSAKeyPair rsaId).2 = some text := by
  simp [receiveChat, mkChatMessage, generateRSAKeyPair, decryptKeyWithRSA,
    encryptKeyWithRSA, exportRawAes, importRawAes, decryptWithAES, encryptWithAES,
    aesGcmDecrypt, aesGcmEncrypt, xorStream_invol]

theorem gcmTag_body_inj (k : SymKey) (iv b1 b2 : List Nat)
    (hl : b1.length = b2.length) (h : gcmTag k iv b1 = gcmTag k iv b2) : b1 = b2 := by
  have h' : b1 ++ (iv ++ encodeKey k) = b2 ++ (iv ++ encodeKey k) := by
    simpa [gcmTag, List.append_assoc] using h
  exact List.append_inj_left h' hl

theorem aesGcmDecrypt_tamper_body (k : SymKey) (iv bytes : List Nat) (i b : Nat)
    (hi : i < (aesGcmEncrypt k iv bytes).body.length)
    (hb : (aesGcmEncrypt k iv bytes).body.get ⟨i, hi⟩ ≠ b) :
    aesGcmDecrypt k iv
      ⟨(aesGcmEncrypt k iv bytes).body.set i b, (aesGcmEncrypt k iv bytes).tag⟩ = none := by
  apply if_neg
  intro heq
  have hbody : (aesGcmEncrypt k iv bytes).body
      = (aesGcmEncrypt k iv bytes).body.set i b := by
    apply gcmTag_body_inj k iv _ _ (by simp)
    simpa [aesGcmEncrypt] using heq
  have h1 : (aesGcmEncrypt k iv bytes).body[i]? = some b := by
    rw [hbody]
    exact List.getElem?_set_self (by simpa using hi)
  have h2 : (aesGcmEncrypt k iv bytes).body[i]? = some ((aesGcmEncrypt k iv bytes).body.get ⟨i, hi⟩) := by
    simp
  rw [h2] at h1
  exact hb (Option.some.inj h1)

theorem aesGcmDecrypt_tamper_tag (k : SymKey) (iv bytes : List Nat) (i b : Nat)
    (hi : i < (aesGcmEncrypt k iv bytes).tag.length)
    (hb : (aesGcmEncrypt k iv bytes).tag.get ⟨i, hi⟩ ≠ b) :
    aesGcmDecrypt k iv
      ⟨(aesGcmEncrypt k iv bytes).body, (aesGcmEncrypt k iv bytes).tag.set i b⟩ = none := by
  apply if_neg
  intro heq
  have htag : (aesGcmEncrypt k iv bytes).tag.set i b = (aesGcmEncrypt k iv bytes).tag := by
    simpa [aesGcmEncrypt] using heq
  have h1 : (aesGcmEncrypt k iv bytes).tag[i]? = some b := by
    rw [← htag]
    exact List.getElem?_set_self (by simpa using hi)
  have h2 : (aesGcmEncrypt k iv bytes).tag[i]? = some ((aesGcmEncrypt k iv bytes).tag.get ⟨i, hi⟩) := by
    simp
  rw [h2] at h1
  exact hb (Option.some.inj h1)

/-- C2 (amended): altering any byte of the encryptedContent of a sealed
envelope, whether in the GCM ciphertext body or in the GCM authentication
tag, makes the receive-side opening (RSA unwrap then authenticated AES-GCM
decryption) fail with a decryption error and never return altered
plaintext; the separate hmac field, however, is a decorative constant that
the receive side never consults, so altering it does not affect opening. -/
theorem claim2_tamper_detection (text sender recipient msgId : List Nat)
    (rsaId sessionKeyId ts : Nat) (ivBytes : List Nat) :
    (∀ i b, ∀ hi : i < (mkChatMessage text sender recipient (generateRSAKeyPair rsaId).1
        sessionKeyId ivBytes msgId ts).encryptedContent.body.length,
      (mkChatMessage text sender recipient (generateRSAKeyPair rsaId).1
        sessionKeyId ivBytes msgId ts).encryptedContent.body.get ⟨i, hi⟩ ≠ b →
      receiveChat (tamperBody (mkChatMessage text sender recipient
        (generateRSAKeyPair rsaId).1 sessionKeyId ivBytes msgId ts) i b)
        (generateRSAKeyPair rsaId).2 = none) ∧
    (∀ i b, ∀ hi : i < (mkChatMessage text sender recipient (generateRSAKeyPair rsaId).1
        sessionKeyId ivBytes msgId ts).encryptedContent.tag.length,
      (mkChatMessage text sender recipient (generateRSAKeyPair rsaId).1
        sessionKeyId ivBytes msgId ts).encryptedContent.tag.get ⟨i, hi⟩ ≠ b →
      receiveChat (tamperTag (mkChatMessage text sender recipient
        (generateRSAKeyPair rsaId).1 sessionKeyId ivBytes msgId ts) i b)
        (generateRSAKeyPair rsaId).2 = none) ∧
    (∀ h : List Nat,
      receiveChat (setHmac (mkChatMessage text sender recipient
        (generateRSAKeyPair rsaId).1 sessionKeyId ivBytes msgId ts) h)
        (generateRSAKeyPair rsaId).2
      = receiveChat (mkChatMessage text sender recipient
        (generateRSAKeyPair rsaId).1 sessionKeyId ivBytes msgId ts)
        (generateRSAKeyPair rsaId).2) := by
  refine ⟨?_, ?_, ?_⟩
  · intro i b hi hb
    have := aesGcmDecrypt_tamper_body (SymKey.fresh sessionKeyId) ivBytes text i b
      (by simpa [mkChatMessage, encryptWithAES] using hi)
      (by simpa [mkChatMessage, encryptWithAES] using hb)
    simp only [receiveChat, tamperBody, mkChatMessage, generateRSAKeyPair,
      decryptKeyWithRSA, encryptKeyWithRSA, exportRawAes, importRawAes,
      decryptWithAES, encryptWithAES] at this ⊢
    simpa using this
  · intro i b hi hb
    have := aesGcmDecrypt_tamper_tag (SymKey.fresh sessionKeyId) ivBytes text i b
      (by simpa [mkChatMessage, encryptWithAES] using hi)
      (by simpa [mkChatMessage, encryptWithAES] using hb)
    simp only [receiveChat, tamperTag, mkChatMessage, generateRSAKeyPair,
      decryptKeyWithRSA, encryptKeyWithRSA, exportRawAes, importRawAes,
      decryptWithAES, encryptWithAES] at this ⊢
    simpa using this
  · intro h
    simp [receiveChat, setHmac, mkChatMessage]

theorem claim2_tamper_detection_witness :
    (0 < sampleMsg.encryptedContent.body.length ∧
      receiveChat (tamperBody sampleMsg 0 999) (generateRSAKeyPair 7).2 = none) ∧
    (0 < sampleMsg.encryptedContent.tag.length ∧
      receiveChat (tamperTag sampleMsg 0 999) (generateRSAKeyPair 7).2 = none) ∧
    receiveChat (setHmac sampleMsg (str ("X"))) (generateRSAKeyPair 7).2
      = receiveChat sampleMsg (generateRSAKeyPair 7).2 := by
  have h := claim2_tamper_detection (str ("hi")) (str ("alice")) (str ("bob"))
    (str ("m1")) 7 3 1000 [9, 9, 9]
  refine ⟨⟨by decide, h.1 0 999 (by decide) (by decide)⟩,
          ⟨by decide, h.2.1 0 999 (by decide) (by decide)⟩,
          h.2.2 (str ("X"))⟩

/-- C2 counterexample to the claim as stated: in the concrete sealed
envelope sampleMsg, altering the integrityTag (hmac) field does not make
the receive-side opening fail; the opening still succeeds and returns the
original plaintext, because the hmac field is a constant that the receive
path never verifies. -/
theorem claim2_hmac_not_checked_counterexample :
    (setHmac sampleMsg (str ("X"))).hmac ≠ sampleMsg.hmac ∧
    receiveChat (setHmac sampleMsg (str ("X"))) (generateRSAKeyPair 7).2
      = some (str ("hi")) := by
  constructor
  · decide
  · decide

theorem encodeKey_pbkdf2_inj (p p' u u' : List Nat)
    (h : encodeKey (.pbkdf2 p u) = encodeKey (.pbkdf2 p' u')) : p = p' ∧ u = u' := by
  simp only [encodeKey, List.cons_append, List.nil_append, List.cons.injEq] at h
  obtain ⟨hp, hu, happ⟩ := h.2
  exact ⟨List.append_inj_left happ hp, List.append_inj_right happ hp⟩

/-- C3: deriveMasterKey (deriveKeyFromPassword) is deterministic in the
password and username salt; recovering a protected private key under the
master key derived from the matching password returns exactly the original
key; and recovery under a master key derived from any different password
fails with a key-recovery error (the authenticated decryption throws) and
never returns a silently different key. -/
theorem claim3_protect_recover (k : RsaPriv) (p p' u iv : List Nat) :
    (deriveKeyFromPassword p u = deriveKeyFromPassword p u) ∧
    (recoverPrivateKey
        (protectPrivateKey k (deriveKeyFromPassword p u) iv).1
        (deriveKeyFromPassword p u)
        (protectPrivateKey k (deriveKeyFromPassword p u) iv).2 = some k) ∧
    (p ≠ p' →
      recoverPrivateKey
        (protectPrivateKey k (deriveKeyFromPassword p u) iv).1
        (deriveKeyFromPassword p' u)
        (protectPrivateKey k (deriveKeyFromPassword p u) iv).2 = none) := by
  refine ⟨rfl, ?_, ?_⟩
  · simp [recoverPrivateKey, protectPrivateKey, aesGcmDecrypt, aesGcmEncrypt,
      deriveKeyFromPassword, xorStream_invol, pkcs8Encode, importPkcs8]
  · intro hne
    have htag : gcmTag (.pbkdf2 p u) iv (xorStream (.pbkdf2 p u) iv 0 (pkcs8Encode k))
        ≠ gcmTag (.pbkdf2 p' u) iv (xorStream (.pbkdf2 p u) iv 0 (pkcs8Encode k)) := by
      intro heq
      have h0 : (xorStream (.pbkdf2 p u) iv 0 (pkcs8Encode k) ++ iv)
            ++ encodeKey (SymKey.pbkdf2 p u)
          = (xorStream (.pbkdf2 p u) iv 0 (pkcs8Encode k) ++ iv)
            ++ encodeKey (SymKey.pbkdf2 p' u) := by
        simpa [gcmTag] using heq
      have h1 := List.append_cancel_left h0
      exact hne (encodeKey_pbkdf2_inj p p' u u h1).1
    simp only [recoverPrivateKey, protectPrivateKey, aesGcmEncrypt,
      deriveKeyFromPassword, aesGcmDecrypt]
    rw [if_neg (by simpa using htag)]
    rfl

theorem claim3_protect_recover_witness :
    str ("pw1") ≠ str ("pw2") ∧
    recoverPrivateKey
      (protectPrivateKey ⟨5⟩ (deriveKeyFromPassword (str ("pw1")) (str ("alice"))) [1, 2]).1
      (deriveKeyFromPassword (str ("pw2")) (str ("alice")))
      (protectPrivateKey ⟨5⟩ (deriveKeyFromPassword (str ("pw1")) (str ("alice"))) [1, 2]).2
      = none :=
  ⟨by decide,
    (claim3_protect_recover ⟨5⟩ (str ("pw1")) (str ("pw2")) (str ("alice")) [1, 2]).2.2
      (by decide)⟩

theorem jsTrim_eq_rdropWhile (l : List Nat) :
    jsTrim l = List.rdropWhile isWsCode (List.dropWhile isWsCode l) := rfl

theorem jsTrim_idem (l : List Nat) : jsTrim (jsTrim l) = jsTrim l := by
  rw [jsTrim_eq_rdropWhile, jsTrim_eq_rdropWhile]
  have hdropB : List.dropWhile isWsCode
      (List.rdropWhile isWsCode (List.dropWhile isWsCode l))
      = List.rdropWhile isWsCode (List.dropWhile isWsCode l) := by
    rw [List.dropWhile_eq_self_iff]
    intro hl
    obtain ⟨t, ht⟩ := List.rdropWhile_prefix isWsCode (List.dropWhile isWsCode l)
    have hlenA : 0 < (List.dropWhile isWsCode l).length := by
      rw [← ht, List.length_append]
      omega
    have hheadA := (List.dropWhile_eq_self_iff.mp
      (List.dropWhile_idempotent isWsCode l)) hlenA
    have hopt : (List.dropWhile isWsCode l)[0]?
        = (List.rdropWhile isWsCode (List.dropWhile isWsCode l))[0]? := by
      conv_lhs => rw [← ht]
      exact List.getElem?_append_left hl
    rw [List.getElem?_eq_getElem hlenA, List.getElem?_eq_getElem hl] at hopt
    have hgets : (List.dropWhile isWsCode l).get ⟨0, hlenA⟩
        = (List.rdropWhile isWsCode (List.dropWhile isWsCode l)).get ⟨0, hl⟩ := by
      simp only [List.get_eq_getElem]
      exact Option.some.inj hopt
    rw [hgets] at hheadA
    exact hheadA
  rw [hdropB]
  exact List.rdropWhile_idempotent isWsCode (List.dropWhile isWsCode l)

theorem isWs_lowerCode (n : Nat) : isWsCode (lowerCode n) = isWsCode n := by
  simp only [lowerCode]
  split
  · next h =>
      simp only [Bool.and_eq_true, decide_eq_true_eq] at h
      simp only [isWsCode, decide_eq_decide]
      omega
  · rfl

theorem lowerCode_idem (n : Nat) : lowerCode (lowerCode n) = lowerCode n := by
  simp only [lowerCode]
  split
  · next h =>
      simp only [Bool.and_eq_true, decide_eq_true_eq] at h
      rw [if_neg]
      simp only [Bool.and_eq_true, decide_eq_true_eq]
      omega
  · rfl

theorem jsToLower_idem (l : List Nat) : jsToLower (jsToLower l) = jsToLower l := by
  simp only [jsToLower, List.map_map]
  exact List.map_congr_left fun a _ => lowerCode_idem a

theorem jsTrim_jsToLower_comm (l : List Nat) :
    jsTrim (jsToLower l) = jsToLower (jsTrim l) := by
  have hcomp : (isWsCode ∘ lowerCode) = isWsCode := funext isWs_lowerCode
  simp only [jsTrim, jsToLower]
  rw [List.dropWhile_map, hcomp, ← List.map_reverse, List.dropWhile_map, hcomp,
    ← List.map_reverse]

/-- C4 (amended): the node identifier derivation toNodeId (the ST- prefix
on the trimmed, lower-cased username) is whitespace- and case-insensitive,
and its underlying normalization (trim then lower-case) is idempotent;
the local-id derivation in init, the target derivation in connectToPeer
and the target derivation in send all compute exactly toNodeId; the
re-keying of an inbound connection on receipt of an identity-exchange
record, however, lower-cases without trimming, and therefore agrees with
toNodeId only for usernames without surrounding whitespace (toNodeId
itself, taken literally as a function, is not idempotent because it
prepends the ST- prefix). -/
theorem claim4_node_id_normalization :
    (∀ u : List Nat, toNodeId (jsTrim u) = toNodeId u) ∧
    (∀ u : List Nat, toNodeId (jsToLower u) = toNodeId u) ∧
    toNodeId (str ("Alice")) = toNodeId (str (" alice")) ∧
    (∀ u : List Nat, normalizeUsername (normalizeUsername u) = normalizeUsername u) ∧
    (∀ u : List Nat,
      initNodeId u = toNodeId u ∧ connectTargetId u = toNodeId u ∧
        sendTargetId u = toNodeId u) ∧
    (∀ u : List Nat, jsTrim u = u → rekeyNodeId u = toNodeId u) := by
  refine ⟨?_, ?_, by decide, ?_, fun u => ⟨rfl, rfl, rfl⟩, ?_⟩
  · intro u
    rw [toNodeId, toNodeId, jsTrim_idem]
  · intro u
    rw [toNodeId, toNodeId, jsTrim_jsToLower_comm, jsToLower_idem]
  · intro u
    rw [normalizeUsername, normalizeUsername, jsTrim_jsToLower_comm, jsToLower_idem,
      jsTrim_idem]
  · intro u h
    rw [rekeyNodeId, toNodeId, h]

theorem claim4_node_id_normalization_witness :
    jsTrim (str ("alice")) = str ("alice") ∧
    rekeyNodeId (str ("alice")) = toNodeId (str ("alice")) :=
  ⟨by decide, claim4_node_id_normalization.2.2.2.2.2 (str ("alice")) (by decide)⟩

/-- C4 counterexample to the claim as stated: for the username written with
a leading space, the re-keying site (lower-case without trim) and the other
call sites (trim then lower-case) derive different node identifiers, and
toNodeId applied to its own output differs from a single application, so
toNodeId is not literally idempotent. -/
theorem claim4_rekey_divergence_counterexample :
    rekeyNodeId (str (" alice")) ≠ toNodeId (str (" alice")) ∧
    toNodeId (toNodeId (str ("alice"))) ≠ toNodeId (str ("alice")) := by
  exact ⟨by decide, by decide⟩

theorem delayStep_iter (N : Nat) :
    delayStep^[N] 1000 = min (1000 * ((3 : ℚ) / 2) ^ N) 30000 := by
  induction N with
  | zero =>
      rw [Function.iterate_zero, id_eq, pow_zero, mul_one]
      exact (min_eq_left (by norm_num)).symm
  | succ n ih =>
      rw [Function.iterate_succ_apply', ih]
      rcases le_total (1000 * ((3 : ℚ) / 2) ^ n) 30000 with h | h
      · rw [min_eq_left h, delayStep, pow_succ, ← mul_assoc]
      · rw [min_eq_right h, delayStep]
        have h1 : (30000 : ℚ) ≤ 30000 * (3 / 2) := by norm_num
        have h2 : (30000 : ℚ) ≤ 1000 * ((3 : ℚ) / 2) ^ (n + 1) := by
          calc (30000 : ℚ) ≤ 1000 * ((3 : ℚ) / 2) ^ n := h
          _ ≤ 1000 * ((3 : ℚ) / 2) ^ n * (3 / 2) := by
              apply le_mul_of_one_le_right
              · positivity
              · norm_num
          _ = 1000 * ((3 : ℚ) / 2) ^ (n + 1) := by rw [pow_succ, ← mul_assoc]
        rw [min_eq_right h1, min_eq_right h2]

theorem backoff_invariant (N : Nat) :
    (runS onlineState (backoffEvents N)).reconnectDelay = delayStep^[N] 1000 ∧
    (runS onlineState (backoffEvents N)).reconnectTimeout = false ∧
    (runS onlineState (backoffEvents N)).timersPending = 0 ∧
    (runS onlineState (backoffEvents N)).peerExists = true ∧
    (runS onlineState (backoffEvents N)).peerDestroyed = false := by
  induction N with
  | zero =>
      refine ⟨?_, ?_, ?_, ?_, ?_⟩ <;> decide
  | succ n ih =>
      obtain ⟨hd, ht, hp, he, hdes⟩ := ih
      have hrun : runS onlineState (backoffEvents (n + 1))
          = stepS (stepS (runS onlineState (backoffEvents n)) Event.peerDisconnected)
              Event.timerFire := by
        rw [backoffEvents, runS, runS, List.foldl_append]
        rfl
      rw [hrun]
      set s := runS onlineState (backoffEvents n) with hs
      have h1 : stepS s Event.peerDisconnected
          = { s with isOnline := false, peerDisconnected := true,
                     reconnectTimeout := true, timersPending := s.timersPending + 1 } := by
        simp [stepS, step, handleReconnect, ht]
      rw [h1]
      refine ⟨?_, ?_, ?_, ?_, ?_⟩ <;>
        simp [stepS, step, timerFireFun, he, hdes, hp, hd,
          Function.iterate_succ_apply', delayStep]

/-- C5: with floor delay 1000 ms, multiplier 1.5 and ceiling 30000 ms,
after N consecutive reconnect rounds (each scheduled attempt increases the
delay regardless of its outcome) the next scheduled reconnect delay held by
the session manager equals min of 1000 times 1.5 to the N and 30000; and a
confirmed Online transition (the transport open event) resets the delay to
the 1000 ms floor in every state. -/
theorem claim5_backoff_delay (N : Nat) (s : SvcState) :
    (runS onlineState (backoffEvents N)).reconnectDelay
      = min (1000 * ((3 : ℚ) / 2) ^ N) 30000 ∧
    (stepS s Event.peerOpen).reconnectDelay = 1000 := by
  constructor
  · rw [(backoff_invariant N).1, delayStep_iter]
  · simp [stepS, step]

theorem setupConnection_frame (c : Conn) (s : SvcState) :
    (setupConnectionFun c s).reconnectTimeout = s.reconnectTimeout ∧
    (setupConnectionFun c s).timersPending = s.timersPending ∧
    (setupConnectionFun c s).reconnectDelay = s.reconnectDelay ∧
    (setupConnectionFun c s).connections = s.connections ∧
    (setupConnectionFun c s).pendingOpenSends = s.pendingOpenSends ∧
    (setupConnectionFun c s).isOnline = s.isOnline ∧
    (setupConnectionFun c s).openConns = s.openConns ∧
    (setupConnectionFun c s).isDestroyed = s.isDestroyed := by
  unfold setupConnectionFun
  split
  · split <;> simp
  · simp

theorem initFun_timer_frame (u : User) (s : SvcState) :
    (initFun u s).1.reconnectTimeout = s.reconnectTimeout ∧
    (initFun u s).1.timersPending = s.timersPending ∧
    (initFun u s).1.reconnectDelay = s.reconnectDelay := by
  unfold initFun
  split <;> simp

theorem sendFuel_timer_frame (f : Nat) :
    ∀ (s : SvcState) (m : EncryptedMessage) (env : SendEnv),
      (sendFuel f s m env).1.reconnectTimeout = s.reconnectTimeout ∧
      (sendFuel f s m env).1.timersPending = s.timersPending ∧
      (sendFuel f s m env).1.reconnectDelay = s.reconnectDelay ∧
      (sendFuel f s m env).1.isDestroyed = s.isDestroyed := by
  induction f with
  | zero => intro s m env; exact ⟨rfl, rfl, rfl, rfl⟩
  | succ n ih =>
      intro s m env
      simp only [sendFuel]
      by_cases ho : s.isOnline = true
      · simp only [ho, Bool.not_true, Bool.false_eq_true, if_false]
        cases hm : mapGet s.connections (sendTargetId m.recipientId) with
        | none =>
            unfold sendConnectBranch
            cases env.connectResult with
            | none => simp
            | some c => simp [setupConnection_frame c s]
        | some c =>
            by_cases hoc : c.cid ∈ s.openConns
            · by_cases hth : c.sendThrows = true
              · have hrec :=
                  ih { s with connections := mapDel s.connections (sendTargetId m.recipientId) }
                    m env
                simpa [hoc, hth, ho] using hrec
              · simp [hoc, hth]
            · unfold sendConnectBranch
              cases env.connectResult with
              | none => simp [hoc]
              | some c2 => simp [hoc, setupConnection_frame c2 s]
      · simp [ho]

theorem handleReconnect_inv (s : SvcState)
    (h1 : s.timersPending ≤ 1) (h2 : s.reconnectTimeout = false → s.timersPending = 0) :
    (handleReconnect s).1.timersPending ≤ 1 ∧
    ((handleReconnect s).1.reconnectTimeout = false →
      (handleReconnect s).1.timersPending = 0) := by
  unfold handleReconnect
  split
  · exact ⟨h1, h2⟩
  · next h =>
      have := h2 (by simpa using h)
      simp [this]

theorem timerInv_step (s : SvcState) (e : Event)
    (h1 : s.timersPending ≤ 1) (h2 : s.reconnectTimeout = false → s.timersPending = 0) :
    (stepS s e).timersPending ≤ 1 ∧
    ((stepS s e).reconnectTimeout = false → (stepS s e).timersPending = 0) := by
  cases e with
  | peerOpen => exact ⟨by simpa [stepS, step] using h1, by simpa [stepS, step] using h2⟩
  | peerConnection c =>
      obtain ⟨f1, f2, _⟩ := setupConnection_frame c s
      refine ⟨?_, ?_⟩ <;> simp only [stepS, step, f1, f2]
      · exact h1
      · exact h2
  | peerError ty msg =>
      simp only [stepS, step]
      split
      · simpa using ⟨h1, h2⟩
      · split
        · simpa using ⟨h1, h2⟩
        · split
          · simpa using handleReconnect_inv s h1 h2
          · split
            · simpa using ⟨h1, h2⟩
            · simpa using ⟨h1, h2⟩
  | peerDisconnected =>
      simpa [stepS, step] using
        handleReconnect_inv { s with isOnline := false, peerDisconnected := true } h1 h2
  | peerClose =>
      simp only [stepS, step]
      split
      · simpa using ⟨h1, h2⟩
      · simpa using
          handleReconnect_inv { s with isOnline := false, peerDestroyed := true } h1 h2
  | connOpen c =>
      simp only [stepS, step, connOpenFun]
      split <;> simpa using ⟨h1, h2⟩
  | connData c d =>
      simp only [stepS, step, connDataFun]
      split
      · cases d <;> simpa using ⟨h1, h2⟩
      · simpa using ⟨h1, h2⟩
  | connClose c =>
      simp only [stepS, step, connCleanupFun]
      split <;> simpa using ⟨h1, h2⟩
  | connErrorEv c =>
      simp only [stepS, step, connCleanupFun]
      split <;> simpa using ⟨h1, h2⟩
  | timerFire =>
      simp only [stepS, step, timerFireFun]
      split
      · exact ⟨h1, h2⟩
      · refine ⟨?_, ?_⟩ <;> simp <;> omega
  | callInit u =>
      obtain ⟨f1, f2, _⟩ := initFun_timer_frame u s
      refine ⟨?_, ?_⟩ <;> simp only [stepS, step, f1, f2]
      · exact h1
      · exact h2
  | callConnectToPeer t nc =>
      simp only [stepS, step, connectToPeerFun]
      split
      · exact ⟨h1, h2⟩
      · split
        · simpa using ⟨h1, h2⟩
        · split
          · simpa using ⟨h1, h2⟩
          · cases nc with
            | none => simpa using ⟨h1, h2⟩
            | some c =>
                obtain ⟨f1, f2, _⟩ := setupConnection_frame c s
                refine ⟨?_, ?_⟩ <;> simp only [f1, f2]
                · exact h1
                · exact h2
  | callSend m env =>
      obtain ⟨f1, f2, _, _⟩ := sendFuel_timer_frame 2 s m env
      refine ⟨?_, ?_⟩ <;> simp only [stepS, step, f1, f2]
      · exact h1
      · exact h2
  | callDestroy =>
      simp [stepS, step, destroyFun]

theorem timerInv_run (evs : List Event) :
    ∀ s : SvcState, s.timersPending ≤ 1 → (s.reconnectTimeout = false → s.timersPending = 0) →
      (runS s evs).timersPending ≤ 1 ∧
      ((runS s evs).reconnectTimeout = false → (runS s evs).timersPending = 0) := by
  induction evs with
  | nil => intro s h1 h2; exact ⟨h1, h2⟩
  | cons e t ih =>
      intro s h1 h2
      have hstep := timerInv_step s e h1 h2
      exact ih (stepS s e) hstep.1 hstep.2

theorem drop_disconnected_frame (s : SvcState) :
    reconFrame (stepS s Event.peerDisconnected)
      = if s.reconnectTimeout = true then reconFrame s
        else (s.reconnectDelay, true, s.timersPending + 1) := by
  by_cases hto : s.reconnectTimeout = true <;>
    simp [reconFrame, stepS, step, handleReconnect, hto]

theorem drop_close_frame (s : SvcState) :
    reconFrame (stepS s Event.peerClose)
      = if s.isDestroyed = true ∨ s.reconnectTimeout = true then reconFrame s
        else (s.reconnectDelay, true, s.timersPending + 1) := by
  by_cases hd : s.isDestroyed = true
  · simp [reconFrame, stepS, step, hd]
  · by_cases hto : s.reconnectTimeout = true <;>
      simp [reconFrame, stepS, step, handleReconnect, hd, hto]

theorem drop_network_frame (s : SvcState) (msg : List Nat) :
    reconFrame (stepS s (Event.peerError (str ("network")) msg))
      = if s.reconnectTimeout = true then reconFrame s
        else (s.reconnectDelay, true, s.timersPending + 1) := by
  have hne1 : ¬(str ("network") = str ("peer-unavailable")) := by decide
  have hne2 : ¬(str ("network") = str ("webrtc")) := by decide
  by_cases hto : s.reconnectTimeout = true <;>
    simp [reconFrame, stepS, step, handleReconnect, hto, hne1, hne2]

/-- C6: in every reachable state of the session manager at most one
reconnect timer is pending; a drop event (transport disconnected, close, or
network error) arriving while a reconnect timer is already pending
schedules no second timer and leaves the reconnect state (delay, timer
handle, pending-timer count) unchanged, and a drop arriving with no timer
pending schedules exactly one timer. -/
theorem claim6_single_pending_timer (evs : List Event) (msg : List Nat) :
    (runS initialState evs).timersPending ≤ 1 ∧
    reconFrame (stepS (runS initialState evs) Event.peerDisconnected)
      = (if (runS initialState evs).reconnectTimeout = true
         then reconFrame (runS initialState evs)
         else ((runS initialState evs).reconnectDelay, true,
               (runS initialState evs).timersPending + 1)) ∧
    reconFrame (stepS (runS initialState evs) Event.peerClose)
      = (if (runS initialState evs).isDestroyed = true ∨
            (runS initialState evs).reconnectTimeout = true
         then reconFrame (runS initialState evs)
         else ((runS initialState evs).reconnectDelay, true,
               (runS initialState evs).timersPending + 1)) ∧
    reconFrame (stepS (runS initialState evs) (Event.peerError (str ("network")) msg))
      = (if (runS initialState evs).reconnectTimeout = true
         then reconFrame (runS initialState evs)
         else ((runS initialState evs).reconnectDelay, true,
               (runS initialState evs).timersPending + 1)) := by
  refine ⟨(timerInv_run evs initialState (by decide) (by decide)).1,
    drop_disconnected_frame _, drop_close_frame _, drop_network_frame _ msg⟩

/-- C7 (amended): when a transport-level close or error is signalled on a
tracked connection, the cleanup removes every registry entry keyed by that
connection's transport peer id (close and error share the same cleanup),
and hence removes every entry referring to the connection whenever all such
entries are keyed by the transport peer id; an entry created by re-keying
under a different key (possible when the exchanged username normalizes
differently from the transport peer id, e.g. a username with surrounding
whitespace) survives the close signal. -/
theorem claim7_close_cleanup (s : SvcState) (c : Conn)
    (htr : c.cid ∈ s.tracked) :
    (∀ e ∈ (stepS s (Event.connClose c)).connections, e.1 ≠ c.peer) ∧
    ((∀ e ∈ s.connections, e.2 = c → e.1 = c.peer) →
      ∀ e ∈ (stepS s (Event.connClose c)).connections, e.2 ≠ c) ∧
    stepS s (Event.connErrorEv c) = stepS s (Event.connClose c) := by
  have hstep : (stepS s (Event.connClose c)).connections
      = mapDel s.connections c.peer := by
    simp [stepS, step, connCleanupFun, htr]
  refine ⟨?_, ?_, rfl⟩
  · intro e he
    rw [hstep] at he
    have h2 := (List.mem_filter.mp he).2
    simpa using h2
  · intro hall e he
    rw [hstep] at he
    obtain ⟨hmem, hpred⟩ := List.mem_filter.mp he
    intro heq
    have hk := hall e hmem heq
    simp [hk] at hpred

theorem claim7_close_cleanup_witness :
    c0.cid ∈ (runS initialState (rekeyTrace.take 4)).tracked ∧
    ((stepS (runS initialState (rekeyTrace.take 4)) (Event.connClose c0)).connections.all
      fun e => !(e.2 == c0)) = true := by
  have h := claim7_close_cleanup (runS initialState (rekeyTrace.take 4)) c0 (by decide)
  refine ⟨by decide, ?_⟩
  rw [List.all_eq_true]
  intro e he
  have hne := h.2.1 (by decide) e he
  simpa using hne

/-- C7 counterexample to the claim as stated: in the concrete run
rekeyTrace an inbound connection with transport peer id ST-alice is
re-keyed under ST- alice (space preserved) after an identity exchange with
the username written with a leading space; the subsequent close signal
removes only the entry keyed by the transport peer id, and the re-keyed
registry entry referring to the now-closed connection survives. -/
theorem claim7_stale_rekey_entry_counterexample :
    (runS initialState rekeyTrace).connections = [(str ("ST- alice"), c0)] ∧
    (runS initialState rekeyTrace).openConns = [] := by
  exact ⟨by decide, by decide⟩

theorem sendFuel_one_step (f : Nat) (s : SvcState) (m : EncryptedMessage) (env : SendEnv) :
    sendFuel (f + 1) s m env
      = if !s.isOnline then
          (s, errOut (str ("transport")) (str ("Signal dropped: Node is offline.")), 1)
        else
          match mapGet s.connections (sendTargetId m.recipientId) with
          | none => sendConnectBranch s m env
          | some c =>
              if !(s.openConns.contains c.cid) then sendConnectBranch s m env
              else if c.sendThrows then
                ((sendFuel f
                    { s with connections := mapDel s.connections (sendTargetId m.recipientId) }
                    m env).1,
                 outAppend (errOut (str ("send-fail")) (str ("Transmission failed. Retrying...")))
                   (sendFuel f
                     { s with connections := mapDel s.connections (sendTargetId m.recipientId) }
                     m env).2.1,
                 (sendFuel f
                   { s with connections := mapDel s.connections (sendTargetId m.recipientId) }
                   m env).2.2 + 1)
              else (s, ⟨[], [(c.cid, ProtocolMessage.chat m)], [], false, []⟩, 1) := rfl

theorem mapGet_mapDel (m : List (List Nat × Conn)) (k : List Nat) :
    mapGet (mapDel m k) k = none := by
  induction m with
  | nil => rfl
  | cons e t ih =>
      by_cases h : e.1 = k
      · simpa [mapDel, List.filter, h] using ih
      · simpa [mapDel, List.filter, mapGet, h] using ih

theorem sendFuel_none_fuel (g : Nat) (s : SvcState) (m : EncryptedMessage) (env : SendEnv)
    (h : mapGet s.connections (sendTargetId m.recipientId) = none) :
    sendFuel (g + 1) s m env = sendFuel 1 s m env := by
  rw [sendFuel_one_step, sendFuel_one_step]
  simp only [h]

theorem sendFuel_stable (f : Nat) (hf : 2 ≤ f) (s : SvcState) (m : EncryptedMessage)
    (env : SendEnv) : sendFuel f s m env = sendFuel 2 s m env := by
  obtain ⟨g, rfl⟩ : ∃ g, f = g + 2 := ⟨f - 2, by omega⟩
  conv_lhs => rw [show g + 2 = (g + 1) + 1 from rfl, sendFuel_one_step]
  conv_rhs => rw [show (2 : Nat) = 1 + 1 from rfl, sendFuel_one_step]
  by_cases ho : s.isOnline = true
  · have hcond : ¬((!s.isOnline) = true) := by simp [ho]
    rw [if_neg hcond, if_neg hcond]
    cases hm : mapGet s.connections (sendTargetId m.recipientId) with
    | none => rfl
    | some c =>
        have hget : mapGet
            ({ s with connections := mapDel s.connections (sendTargetId m.recipientId) } :
              SvcState).connections (sendTargetId m.recipientId) = none :=
          mapGet_mapDel s.connections (sendTargetId m.recipientId)
        by_cases hoc : c.cid ∈ s.openConns
        · by_cases hth : c.sendThrows = true
          · simp [hoc, hth, sendFuel_none_fuel g _ m env hget]
          · simp [hoc, hth]
        · simp [hoc]
  · have hcond : (!s.isOnline) = true := by simp [ho]
    rw [if_pos hcond, if_pos hcond]

theorem sendFuel_one_calls (s : SvcState) (m : EncryptedMessage) (env : SendEnv) :
    (sendFuel 1 s m env).2.2 = 1 := by
  rw [show (1 : Nat) = 0 + 1 from rfl, sendFuel_one_step]
  by_cases ho : s.isOnline = true
  · simp only [ho, Bool.not_true, Bool.false_eq_true, if_false]
    cases hm : mapGet s.connections (sendTargetId m.recipientId) with
    | none =>
        unfold sendConnectBranch
        cases env.connectResult <;> simp
    | some c =>
        by_cases hoc : c.cid ∈ s.openConns
        · by_cases hth : c.sendThrows = true
          · simp [hoc, hth, sendFuel]
          · simp [hoc, hth]
        · unfold sendConnectBranch
          cases env.connectResult <;> simp [hoc]
  · simp [ho]

/-- C8: if sending on an existing open connection throws, send evicts that
connection from the registry, reports the failure, and retries the whole
send exactly once; the retry cannot reach the throwing branch again (the
registry entry is gone), so the recursion is bounded: every fuel of at
least 2 computes the same result, the total number of send invocations is
exactly 2 in the throwing scenario, and when the single retry itself fails
(the fresh connect throws) the failure is surfaced as a send-fail error
with nothing transmitted and no further retry. -/
theorem claim8_send_retry_once (s : SvcState) (m : EncryptedMessage) (env : SendEnv)
    (c : Conn)
    (hon : s.isOnline = true)
    (hm : mapGet s.connections (sendTargetId m.recipientId) = some c)
    (hoc : c.cid ∈ s.openConns)
    (hth : c.sendThrows = true) :
    (∀ f s2 m2 env2, 2 ≤ f → sendFuel f s2 m2 env2 = sendFuel 2 s2 m2 env2) ∧
    (sendFuel 2 s m env).2.2 = 2 ∧
    (sendFuel 2 s m env).2.1.errors.head?
      = some (str ("send-fail"), str ("Transmission failed. Retrying...")) ∧
    mapGet (sendFuel 2 s m env).1.connections (sendTargetId m.recipientId) = none ∧
    (env.connectResult = none →
      (sendFuel 2 s m env).2.1.errors
        = [(str ("send-fail"), str ("Transmission failed. Retrying...")),
           (str ("send-fail"), str ("Could not reach node ") ++ m.recipientId)] ∧
      (sendFuel 2 s m env).2.1.sent = []) := by
  have hdel : mapGet
      (mapDel s.connections (sendTargetId m.recipientId)) (sendTargetId m.recipientId)
      = none := mapGet_mapDel s.connections (sendTargetId m.recipientId)
  have hmain : sendFuel 2 s m env
      = ((sendFuel 1
            { s with connections := mapDel s.connections (sendTargetId m.recipientId) }
            m env).1,
         outAppend (errOut (str ("send-fail")) (str ("Transmission failed. Retrying...")))
           (sendFuel 1
             { s with connections := mapDel s.connections (sendTargetId m.recipientId) }
             m env).2.1,
         (sendFuel 1
           { s with connections := mapDel s.connections (sendTargetId m.recipientId) }
           m env).2.2 + 1) := by
    rw [show (2 : Nat) = 1 + 1 from rfl, sendFuel_one_step]
    simp [hon, hm, hoc, hth]
  have hinner : sendFuel 1
      { s with connections := mapDel s.connections (sendTargetId m.recipientId) } m env
      = sendConnectBranch
          { s with connections := mapDel s.connections (sendTargetId m.recipientId) } m env := by
    rw [show (1 : Nat) = 0 + 1 from rfl, sendFuel_one_step]
    simp [hon, hdel]
  refine ⟨fun f s2 m2 env2 hf => sendFuel_stable f hf s2 m2 env2, ?_, ?_, ?_, ?_⟩
  · rw [hmain, hinner]
    unfold sendConnectBranch
    cases env.connectResult <;> simp
  · rw [hmain]
    simp [outAppend, errOut]
  · rw [hmain, hinner]
    unfold sendConnectBranch
    cases hc : env.connectResult with
    | none => simpa using hdel
    | some c2 =>
        have hsf := setupConnection_frame c2
          { s with connections := mapDel s.connections (sendTargetId m.recipientId) }
        simp only []
        rw [hsf.2.2.2.1]
        simpa using hdel
  · intro hnone
    rw [hmain, hinner]
    unfold sendConnectBranch
    rw [hnone]
    constructor <;> simp [outAppend, errOut]

theorem claim8_send_retry_once_witness :
    sendFuel 5 sThrowState sampleMsg ⟨none⟩ = sendFuel 2 sThrowState sampleMsg ⟨none⟩ ∧
    (sendFuel 2 sThrowState sampleMsg ⟨none⟩).2.2 = 2 ∧
    (sendFuel 2 sThrowState sampleMsg ⟨none⟩).2.1.sent = [] := by
  have h := claim8_send_retry_once sThrowState sampleMsg ⟨none⟩ cThrow
    (by decide) (by decide) (by decide) (by decide)
  exact ⟨h.1 5 sThrowState sampleMsg ⟨none⟩ (by omega), h.2.1, (h.2.2.2.2 rfl).2⟩

theorem runTr_cons (s : SvcState) (e : Event) (t : List Event) :
    runTr s (e :: t)
      = ((runTr (stepS s e) t).1, (step s e).2 :: (runTr (stepS s e) t).2) := rfl

theorem sendFuel_sent_chat (f : Nat) :
    ∀ (s : SvcState) (m : EncryptedMessage) (env : SendEnv),
      ∀ p ∈ (sendFuel f s m env).2.1.sent, p.2 = ProtocolMessage.chat m := by
  induction f with
  | zero => intro s m env p hp; simp [sendFuel, emptyOut] at hp
  | succ n ih =>
      intro s m env p hp
      rw [sendFuel_one_step] at hp
      split at hp
      · simp [errOut] at hp
      · split at hp
        · unfold sendConnectBranch at hp
          split at hp <;> simp [errOut, emptyOut] at hp
        · split at hp
          · unfold sendConnectBranch at hp
            split at hp <;> simp [errOut, emptyOut] at hp
          · split at hp
            · simp only [outAppend, errOut, List.nil_append] at hp
              exact ih _ m env p hp
            · simp at hp
              rw [hp]

theorem sendFuel_pending (f : Nat) :
    ∀ (s : SvcState) (m : EncryptedMessage) (env : SendEnv),
      ∀ q ∈ (sendFuel f s m env).1.pendingOpenSends,
        q ∈ s.pendingOpenSends ∨ q.2 = ProtocolMessage.chat m := by
  induction f with
  | zero => intro s m env q hq; exact Or.inl hq
  | succ n ih =>
      intro s m env q hq
      rw [sendFuel_one_step] at hq
      split at hq
      · exact Or.inl hq
      · split at hq
        · unfold sendConnectBranch at hq
          split at hq
          · next c2 heq =>
              simp only [] at hq
              obtain ⟨_, _, _, _, hp5, _, _, _⟩ := setupConnection_frame c2 s
              rw [List.mem_cons, hp5] at hq
              rcases hq with hq | hq
              · exact Or.inr (by rw [hq])
              · exact Or.inl hq
          · exact Or.inl hq
        · split at hq
          · unfold sendConnectBranch at hq
            split at hq
            · next c2 heq =>
                simp only [] at hq
                obtain ⟨_, _, _, _, hp5, _, _, _⟩ := setupConnection_frame c2 s
                rw [List.mem_cons, hp5] at hq
                rcases hq with hq | hq
                · exact Or.inr (by rw [hq])
                · exact Or.inl hq
            · exact Or.inl hq
          · split at hq
            · simp only [] at hq
              rcases ih _ m env q hq with h | h
              · exact Or.inl h
              · exact Or.inr h
            · exact Or.inl hq

theorem chat_step_frame (m : EncryptedMessage) (k : Nat) (s : SvcState) (e : Event)
    (hop : evOpensCid k e = false) (hsend : evSendsMsg m e = false)
    (hinv : ∀ q ∈ s.pendingOpenSends, q.2 = ProtocolMessage.chat m → q.1 = k) :
    (∀ q ∈ (stepS s e).pendingOpenSends, q.2 = ProtocolMessage.chat m → q.1 = k) ∧
    (∀ p ∈ (step s e).2.sent, p.2 ≠ ProtocolMessage.chat m) := by
  cases e with
  | peerOpen => exact ⟨by simpa [stepS, step] using hinv, by simp [step, emptyOut]⟩
  | peerConnection c =>
      obtain ⟨_, _, _, _, hp5, _, _, _⟩ := setupConnection_frame c s
      refine ⟨?_, by simp [step, emptyOut]⟩
      intro q hq
      rw [show (stepS s (Event.peerConnection c)).pendingOpenSends = s.pendingOpenSends
        from hp5] at hq
      exact hinv q hq
  | peerError ty msg =>
      refine ⟨?_, ?_⟩
      · intro q hq
        apply hinv q
        revert hq
        simp only [stepS, step]
        split
        · simp
        · split
          · simp
          · split
            · simp [handleReconnect]
              split <;> simp
            · split <;> simp
      · simp only [step]
        split
        · simp [errOut]
        · split
          · simp [errOut]
          · split
            · simp [errOut]
            · split <;> simp [errOut]
  | peerDisconnected =>
      refine ⟨?_, by simp [step]⟩
      intro q hq
      apply hinv q
      revert hq
      simp only [stepS, step, handleReconnect]
      split <;> simp
  | peerClose =>
      refine ⟨?_, ?_⟩
      · intro q hq
        apply hinv q
        revert hq
        simp only [stepS, step]
        split
        · simp
        · simp [handleReconnect]
          all_goals (split <;> simp)
      · simp only [step]
        split
        · simp [emptyOut]
        · simp [handleReconnect, emptyOut]
  | connOpen c =>
      have hck : ¬(c.cid = k) := by simpa [evOpensCid] using hop
      refine ⟨?_, ?_⟩
      · intro q hq
        apply hinv q
        revert hq
        simp only [stepS, step, connOpenFun]
        split
        · simp only []
          intro hq
          exact (List.mem_filter.mp hq).1
        · simp only []
          intro hq
          exact (List.mem_filter.mp hq).1
      · intro p hp
        simp only [step, connOpenFun] at hp
        split at hp
        · simp only [List.mem_append] at hp
          rcases hp with hp | hp
          · split at hp <;> simp at hp
            · simp [hp]
          · simp only [List.mem_map] at hp
            obtain ⟨q, hq, hpq⟩ := hp
            have hqmem := List.mem_filter.mp hq
            intro hchat
            have hq1 : q.1 = k := by
              apply hinv q hqmem.1
              rw [← hchat, ← hpq]
            have hq2 : q.1 = c.cid := by simpa using hqmem.2
            exact hck (hq2 ▸ hq1)
        · simp only [List.mem_map] at hp
          obtain ⟨q, hq, hpq⟩ := hp
          have hqmem := List.mem_filter.mp hq
          intro hchat
          have hq1 : q.1 = k := by
            apply hinv q hqmem.1
            rw [← hchat, ← hpq]
          have hq2 : q.1 = c.cid := by simpa using hqmem.2
          exact hck (hq2 ▸ hq1)
  | connData c d =>
      refine ⟨?_, ?_⟩
      · intro q hq
        apply hinv q
        revert hq
        simp only [stepS, step, connDataFun]
        split
        · cases d <;> simp
        · simp
      · simp only [step, connDataFun]
        split
        · cases d <;> simp [emptyOut]
        · simp [emptyOut]
  | connClose c =>
      refine ⟨?_, by simp [step, connCleanupFun]; split <;> simp [emptyOut]⟩
      intro q hq
      apply hinv q
      revert hq
      simp only [stepS, step, connCleanupFun]
      split <;> simp
  | connErrorEv c =>
      refine ⟨?_, by simp [step, connCleanupFun]; split <;> simp [emptyOut]⟩
      intro q hq
      apply hinv q
      revert hq
      simp only [stepS, step, connCleanupFun]
      split <;> simp
  | timerFire =>
      refine ⟨?_, by simp [step, emptyOut]⟩
      intro q hq
      apply hinv q
      revert hq
      simp only [stepS, step, timerFireFun]
      split
      · simp
      · split
        · simp
        · split
          · split
            · simp [initFun]
              split <;> simp
            · simp
          · simp
  | callInit u =>
      refine ⟨?_, by simp [step, emptyOut]⟩
      intro q hq
      apply hinv q
      revert hq
      simp only [stepS, step, initFun]
      split <;> simp
  | callConnectToPeer t nc =>
      refine ⟨?_, ?_⟩
      · intro q hq
        apply hinv q
        revert hq
        simp only [stepS, step, connectToPeerFun]
        split
        · simp
        · split
          · simp
          · split
            · simp
            · cases nc with
              | none => simp
              | some c2 =>
                  obtain ⟨_, _, _, _, hp5, _, _, _⟩ := setupConnection_frame c2 s
                  simp [hp5]
      · simp only [step, connectToPeerFun]
        split
        · simp [emptyOut]
        · split
          · simp [emptyOut]
          · split
            · simp [errOut]
            · cases nc <;> simp [errOut, emptyOut]
  | callSend m2 env =>
      have hm2 : ¬(m2 = m) := by simpa [evSendsMsg] using hsend
      refine ⟨?_, ?_⟩
      · intro q hq
        have := sendFuel_pending 2 s m2 env q (by simpa [stepS, step] using hq)
        rcases this with h | h
        · exact hinv q h
        · intro hchat
          rw [h] at hchat
          exact absurd (ProtocolMessage.chat.inj hchat) hm2
      · intro p hp
        have := sendFuel_sent_chat 2 s m2 env p (by simpa [step] using hp)
        rw [this]
        intro hfalse
        exact hm2 (ProtocolMessage.chat.inj hfalse)
  | callDestroy =>
      refine ⟨?_, by simp [step, emptyOut]⟩
      intro q hq
      apply hinv q
      simpa [stepS, step, destroyFun] using hq

theorem chat_never_sent (m : EncryptedMessage) (k : Nat) :
    ∀ (evs : List Event) (s : SvcState),
      (∀ e ∈ evs, evOpensCid k e = false ∧ evSendsMsg m e = false) →
      (∀ q ∈ s.pendingOpenSends, q.2 = ProtocolMessage.chat m → q.1 = k) →
      ∀ o ∈ (runTr s evs).2, ∀ p ∈ o.sent, p.2 ≠ ProtocolMessage.chat m := by
  intro evs
  induction evs with
  | nil => intro s _ _ o ho; simp [runTr] at ho
  | cons e t ih =>
      intro s hevs hinv o ho
      have he := hevs e (List.mem_cons_self e t)
      have hstep := chat_step_frame m k s e he.1 he.2 hinv
      rw [runTr_cons] at ho
      simp only [List.mem_cons] at ho
      rcases ho with ho | ho
      · intro p hp
        exact hstep.2 p (by rw [ho] at hp; exact hp)
      · exact ih (stepS s e)
          (fun e2 he2 => hevs e2 (List.mem_cons_of_mem e he2)) hstep.1 o ho

/-- C9: when the local node is Online and no open connection to the
recipient exists, send makes one fresh outbound connect and registers the
envelope only as the on-open closure of that attempt: it transmits nothing,
raises no error yet, and changes no registry entry; the subsequent
transport peer-unavailable error is reported to the error handlers; and
because the failed attempt never fires its open event, no copy of the
envelope is ever transmitted by any later events that do not open that
attempt and do not call send again with the same envelope (the envelope is
not queued for later delivery). -/
theorem claim9_offline_peer_send (s : SvcState) (m : EncryptedMessage) (c : Conn)
    (emsg : List Nat)
    (hon : s.isOnline = true)
    (hno : ∀ e, mapGet s.connections (sendTargetId m.recipientId) = some e →
      ¬(e.cid ∈ s.openConns))
    (hpend : ∀ q ∈ s.pendingOpenSends, q.2 ≠ ProtocolMessage.chat m) :
    (step s (Event.callSend m ⟨some c⟩)).2.sent = [] ∧
    (step s (Event.callSend m ⟨some c⟩)).2.errors = [] ∧
    (stepS s (Event.callSend m ⟨some c⟩)).connections = s.connections ∧
    (stepS s (Event.callSend m ⟨some c⟩)).pendingOpenSends
      = (c.cid, ProtocolMessage.chat m) :: s.pendingOpenSends ∧
    (step (stepS s (Event.callSend m ⟨some c⟩))
        (Event.peerError (str ("peer-unavailable")) emsg)).2.errors
      = [(str ("peer-unavailable"),
          str ("Node ") ++ removeFirst (str ("ST-")) emsg
            ++ str (" is currently offline or unreachable."))] ∧
    (∀ evs : List Event,
      (∀ e ∈ evs, evOpensCid c.cid e = false ∧ evSendsMsg m e = false) →
      ∀ o ∈ (runTr (stepS (stepS s (Event.callSend m ⟨some c⟩))
          (Event.peerError (str ("peer-unavailable")) emsg)) evs).2,
        ∀ p ∈ o.sent, p.2 ≠ ProtocolMessage.chat m) := by
  have hsend : sendFuel 2 s m ⟨some c⟩
      = ({ setupConnectionFun c s with pendingOpenSends :=
            (c.cid, ProtocolMessage.chat m) :: (setupConnectionFun c s).pendingOpenSends },
         emptyOut, 1) := by
    rw [show (2 : Nat) = 1 + 1 from rfl, sendFuel_one_step]
    cases hm : mapGet s.connections (sendTargetId m.recipientId) with
    | none => simp [hon, hm, sendConnectBranch]
    | some e =>
        have : ¬(e.cid ∈ s.openConns) := hno e hm
        simp [hon, hm, this, sendConnectBranch]
  obtain ⟨_, _, _, hc4, hp5, _, _, _⟩ := setupConnection_frame c s
  have hstate : (stepS s (Event.callSend m ⟨some c⟩)).connections = s.connections ∧
      (stepS s (Event.callSend m ⟨some c⟩)).pendingOpenSends
        = (c.cid, ProtocolMessage.chat m) :: s.pendingOpenSends := by
    constructor
    · rw [stepS, step, hsend]
      exact hc4
    · rw [stepS, step, hsend]
      simp only []
      rw [hp5]
  refine ⟨?_, ?_, hstate.1, hstate.2, ?_, ?_⟩
  · simp [step, hsend, emptyOut]
  · simp [step, hsend, emptyOut]
  · simp [step, errOut]
  · intro evs hevs o ho p hp
    refine chat_never_sent m c.cid evs _ hevs ?_ o ho p hp
    have hpe : (stepS (stepS s (Event.callSend m ⟨some c⟩))
        (Event.peerError (str ("peer-unavailable")) emsg)).pendingOpenSends
        = (stepS s (Event.callSend m ⟨some c⟩)).pendingOpenSends := by
      simp [stepS, step]
    rw [hpe, hstate.2]
    intro q hq
    rcases List.mem_cons.mp hq with hq | hq
    · intro _
      rw [hq]
    · intro hchat
      exact absurd hchat (hpend q hq)

theorem claim9_offline_peer_send_witness :
    (step onlineState (Event.callSend sampleMsg ⟨some cFresh⟩)).2.sent = [] ∧
    (stepS onlineState (Event.callSend sampleMsg ⟨some cFresh⟩)).pendingOpenSends
      = [(cFresh.cid, ProtocolMessage.chat sampleMsg)] ∧
    (step (stepS onlineState (Event.callSend sampleMsg ⟨some cFresh⟩))
        (Event.peerError (str ("peer-unavailable")) (str ("ST-bob")))).2.errors
      = [(str ("peer-unavailable"),
          str ("Node ") ++ removeFirst (str ("ST-")) (str ("ST-bob"))
            ++ str (" is currently offline or unreachable."))] := by
  have h := claim9_offline_peer_send onlineState sampleMsg cFresh (str ("ST-bob"))
    (by decide)
    (by
      intro e he
      rw [show mapGet onlineState.connections (sendTargetId sampleMsg.recipientId) = none
        from by decide] at he
      exact Option.noConfusion he)
    (by
      intro q hq
      rw [show onlineState.pendingOpenSends = [] from by decide] at hq
      exact absurd hq (List.not_mem_nil q))
  refine ⟨h.1, ?_, h.2.2.2.2.1⟩
  rw [h.2.2.2.1]
  rw [show onlineState.pendingOpenSends = [] from by decide]

/-- C10: calling init while a live, non-destroyed transport peer exists is
a complete no-op: the state is returned unchanged (same local node id,
stored user, connection registry and reconnect state), no peer is created,
no outputs are produced and the onReady callback can never fire from this
call, even when a different user is passed. -/
theorem claim10_init_noop (s : SvcState) (u : User)
    (hp : s.peerExists = true) (hd : s.peerDestroyed = false) :
    step s (Event.callInit u) = (s, emptyOut) ∧ initFun u s = (s, false) := by
  have hinit : initFun u s = (s, false) := by
    unfold initFun
    rw [if_pos (by rw [hp, hd]; rfl)]
  exact ⟨by rw [step, hinit], hinit⟩

theorem claim10_init_noop_witness :
    step onlineState (Event.callInit u1) = (onlineState, emptyOut) ∧
    initFun u1 onlineState = (onlineState, false) :=
  claim10_init_noop onlineState u1 (by decide) (by decide)

end SecureText
